import Mathlib

/-!
# `server.js`: signup, login, session guard

A shallow embedding of the Express server in `src/server.js` and the
properties of its handlers.

Modelling choices, all read off the source:

* JavaScript strings are Lean strings (sequences of Unicode scalar values).
  `.length` counts UTF-16 code units (`jsLength`), `.trim()` strips the
  ECMAScript `WhiteSpace` and `LineTerminator` code points. `.toLowerCase()`
  maps `A`..`Z` to `a`..`z` on a string of ASCII code points; on any other
  string it is the runtime's Unicode case mapping, which is not part of the
  sources and is a parameter (`Lib.unicodeLower`).
* A field of a JSON body is `none` (absent) or `some s` (a string).
* `users` is a plain object literal `{}`: a lookup `users[key]` first looks
  at the own properties written by signup, then at `Object.prototype`.
* `bcryptjs` and `jsonwebtoken` are not part of the sources. Their pure
  functions on strings are parameters (`Lib`), next to the runtime's case
  mapping; the randomness of `bcrypt.hash` (`salt`) and the clock are
  explicit inputs.
* Every handler returns the store it leaves, its response, and the trace of
  store accesses and library calls it made, in order.
* `await` is a suspension point: signup is split into the part that runs up
  to `await bcrypt.hash` (`signupStart`) and its continuation
  (`signupResume`).
-/

namespace Server

/-! ## JavaScript strings -/

/-- The code points `String.prototype.trim` strips: ECMAScript `WhiteSpace`
and `LineTerminator`. -/
def isWhiteSpace (c : Char) : Bool :=
  let n := c.toNat
  n == 0x09 || n == 0x0A || n == 0x0B || n == 0x0C || n == 0x0D || n == 0x20 ||
  n == 0xA0 || n == 0x1680 || (0x2000 ≤ n && n ≤ 0x200A) || n == 0x2028 ||
  n == 0x2029 || n == 0x202F || n == 0x205F || n == 0x3000 || n == 0xFEFF

/-- Lower-casing of one code point: `A`..`Z` go to `a`..`z`. -/
def lowerChar (c : Char) : Char :=
  if 65 ≤ c.toNat ∧ c.toNat ≤ 90 then Char.ofNat (c.toNat + 32) else c

/-- Whether every code point of the string is ASCII. -/
def isAscii (s : String) : Bool :=
  s.data.all fun c => c.toNat < 128

/-- Lower-casing of `A`..`Z` throughout a string. -/
def asciiLower (s : String) : String :=
  ⟨s.data.map lowerChar⟩

/-- The method `s.trim()`: white space is removed at both ends. -/
def trim (s : String) : String :=
  ⟨((s.data.dropWhile isWhiteSpace).reverse.dropWhile isWhiteSpace).reverse⟩

/-- The property `s.length`: the number of UTF-16 code units. -/
def jsLength (s : String) : Nat :=
  (s.data.map fun c => if c.toNat < 0x10000 then 1 else 2).sum

/-- Truthiness of a body field: `undefined` and `''` are falsy. -/
def truthy : Option String → Bool
  | none => false
  | some s => s != ""

/-! ## The `users` object -/

/-- The value stored under a key: `{ name, email, passwordHash, createdAt }`. -/
structure UserRecord where
  name : String
  email : String
  passwordHash : String
  createdAt : String
  deriving DecidableEq, Repr

/-- The own properties of `users`, in insertion order. -/
abbrev Store := List (String × UserRecord)

/-- What a property read `users[key]` evaluates to. -/
inductive Looked where
  | undefined
  | record (r : UserRecord)
  | protoFunction (fname : String)
  | protoObject
  deriving DecidableEq, Repr

/-- The own property `key` of `users`, if there is one. -/
def ownProperty : Store → String → Option UserRecord
  | [], _ => none
  | (k, r) :: rest, key => if k = key then some r else ownProperty rest key

/-- The members every object literal inherits from `Object.prototype`:
`constructor` is the function `Object`, `__proto__` reads as the prototype
object itself, the others are functions named like their key. -/
def objectPrototype (key : String) : Looked :=
  if key = "constructor" then .protoFunction "Object"
  else if key = "__proto__" then .protoObject
  else if key = "toString" ∨ key = "toLocaleString" ∨ key = "valueOf" ∨
      key = "hasOwnProperty" ∨ key = "isPrototypeOf" ∨
      key = "propertyIsEnumerable" ∨ key = "__defineGetter__" ∨
      key = "__defineSetter__" ∨ key = "__lookupGetter__" ∨
      key = "__lookupSetter__" then .protoFunction key
  else .undefined

/-- The declaration `const users = {}`. -/
def users : Store := []

/-- The read `users[key]`: own property first, then the prototype. -/
def usersGet (s : Store) (key : String) : Looked :=
  match ownProperty s key with
  | some r => .record r
  | none => objectPrototype key

/-- The assignment `users[key] = r`: an existing own property keeps its place,
a new one goes last. (For the key `__proto__` an assignment would replace the
prototype instead; signup never assigns there, since `users['__proto__']` is
truthy.) -/
def usersSet : Store → String → UserRecord → Store
  | [], key, r => [(key, r)]
  | (k, r0) :: rest, key, r =>
    if k = key then (key, r) :: rest else (k, r0) :: usersSet rest key r

/-- The test `!v` for a value read from `users`. -/
def Looked.falsy : Looked → Bool
  | .undefined => true
  | _ => false

/-- The read `v.name`: a record's name, a function's name, `undefined` otherwise. -/
def Looked.propName : Looked → Option String
  | .record r => some r.name
  | .protoFunction f => some f
  | _ => none

/-- The read `v.email`. -/
def Looked.propEmail : Looked → Option String
  | .record r => some r.email
  | _ => none

/-- The read `v.passwordHash`. -/
def Looked.propPasswordHash : Looked → Option String
  | .record r => some r.passwordHash
  | _ => none

/-! ## Session tokens -/

/-- The payload of a session token. -/
structure Claim where
  email : Option String
  name : Option String
  deriving DecidableEq, Repr

/-- The parts of a compact signed token. -/
structure Token where
  payload : Claim
  iat : Nat
  exp : Nat
  signature : Nat
  deriving DecidableEq, Repr

/-- A cookie value as the token codec parses it: a compact token, or a string
that is not one. -/
inductive TokenString where
  | malformed (raw : String)
  | compact (t : Token)
  deriving DecidableEq, Repr

/-- The test `!token` for a cookie value: only the empty string is falsy. -/
def TokenString.falsy : TokenString → Bool
  | .malformed raw => raw == ""
  | .compact _ => false

/-- The pure functions the server takes from outside its sources: the
runtime's Unicode case mapping and the functions of the two packages it
requires. -/
structure Lib where
  /-- The string `s.toLowerCase()` evaluates to when `s` has a code point
  outside ASCII. -/
  unicodeLower : String → String
  /-- The hash `bcrypt.hash(password, rounds)` resolves to, given its salt. -/
  hash : String → Nat → String → String
  /-- The boolean `bcrypt.compare(password, hash)` resolves to on two strings. -/
  compare : String → String → Bool
  /-- The signature of a payload, issue time and expiry under a secret. -/
  hmac : String → Claim → Nat → Nat → Nat

/-- The method `s.toLowerCase()`: on a string of ASCII code points `A`..`Z`
go to `a`..`z` and nothing else changes; any other string goes through the
runtime's Unicode case mapping. -/
def toLowerCase (lib : Lib) (s : String) : String :=
  if isAscii s then asciiLower s else lib.unicodeLower s

/-- The expression `String(email).toLowerCase().trim()`, the store key of an
email. -/
def normalizeEmail (lib : Lib) (email : String) : String :=
  trim (toLowerCase lib email)

/-- The object `process.env`, as far as the server reads it. -/
structure Env where
  JWT_SECRET : Option String
  NODE_ENV : Option String

/-- The constant `process.env.JWT_SECRET || 'dev_secret_change_me'`. -/
def JWT_SECRET (env : Env) : String :=
  match env.JWT_SECRET with
  | some s => if s = "" then "dev_secret_change_me" else s
  | none => "dev_secret_change_me"

/-- The constant `process.env.NODE_ENV === 'production'`. -/
def isProd (env : Env) : Bool :=
  env.NODE_ENV == some "production"

/-- The option `expiresIn: '1d'`, in seconds. -/
def expiresIn : Nat := 24 * 60 * 60

/-- Why `jwt.verify` fails. -/
inductive JwtError where
  | invalid
  | expired
  deriving DecidableEq, Repr

/-- Modelled from the spec: `jwt.sign` of the `jsonwebtoken` package, which is
not in the sources. It "serializes the claim plus an expiry timestamp
(issuance + 24h) and signs the result with a server-held secret"; the window
is the `expiresIn` the caller passes. -/
def jwtSign (lib : Lib) (payload : Claim) (secret : String) (window now : Nat) :
    TokenString :=
  .compact
    { payload := payload, iat := now, exp := now + window,
      signature := lib.hmac secret payload now (now + window) }

/-- Modelled from the spec: `jwt.verify` of the `jsonwebtoken` package, which
is not in the sources. It "recomputes/validates the signature; rejects if the
signature does not match (`Invalid`) or if the current time is past the
embedded expiry (`Expired`)"; the signature is checked first. A string that is
no compact token is `Invalid`. -/
def jwtVerify (lib : Lib) (token : TokenString) (secret : String) (now : Nat) :
    Except JwtError Claim :=
  match token with
  | .malformed _ => .error .invalid
  | .compact t =>
    if t.signature ≠ lib.hmac secret t.payload t.iat t.exp then .error .invalid
    else if t.exp ≤ now then .error .expired
    else .ok t.payload

/-! ## Responses and traces -/

/-- A `Set-Cookie` the response carries. -/
structure SetCookie where
  name : String
  value : TokenString
  httpOnly : Bool
  secure : Bool
  deriving DecidableEq, Repr

/-- The JSON bodies the handlers send. -/
inductive Body where
  /-- The body `{ ok: false, error }`. -/
  | error (msg : String)
  /-- The body `{ ok: true, user: { name, email } }`. -/
  | user (name : Option String) (email : Option String)
  /-- The body `{ ok: true, message }`. -/
  | message (msg : String)
  deriving DecidableEq, Repr

/-- A response: status, JSON body, cookies set. -/
structure Response where
  status : Nat
  body : Body
  cookies : List SetCookie
  deriving DecidableEq, Repr

/-- The store accesses and library calls of a handler. -/
inductive Event where
  | usersRead (key : String)
  | usersWrite (key : String)
  | bcryptHash (password : String)
  | bcryptCompare (password : String)
  | jwtVerify (token : TokenString)
  deriving DecidableEq, Repr

/-- What a handler leaves behind. -/
structure Outcome where
  store : Store
  res : Response
  trace : List Event
  deriving DecidableEq, Repr

/-- The call `res.status(status).json({ ok: false, error: msg })`. -/
def fail (status : Nat) (msg : String) : Response :=
  { status := status, body := .error msg, cookies := [] }

/-! ## `setAuthCookie` and `requireAuth` -/

/-- The helper `setAuthCookie(res, payload)`: signs the payload with
`JWT_SECRET` for one day and sets it as the HTTP-only cookie `token`. -/
def setAuthCookie (lib : Lib) (env : Env) (now : Nat) (res : Response)
    (payload : Claim) : Response :=
  let token := jwtSign lib payload (JWT_SECRET env) expiresIn now
  { res with
    cookies := res.cookies ++
      [{ name := "token", value := token, httpOnly := true, secure := isProd env }] }

/-- How the guard ends: it sent a response itself, or it set `req.user` and
called `next`. Either way it leaves a trace. -/
inductive AuthResult where
  | responded (res : Response) (trace : List Event)
  | next (reqUser : Claim) (trace : List Event)
  deriving DecidableEq, Repr

/-- Whether the guard called `next`. -/
def AuthResult.nextCalled : AuthResult → Bool
  | .responded _ _ => false
  | .next _ _ => true

/-- The value of `req.user` once the guard has run, `none` for unset. -/
def AuthResult.user : AuthResult → Option Claim
  | .responded _ _ => none
  | .next reqUser _ => some reqUser

/-- The response the guard sent itself, if it sent one. -/
def AuthResult.res : AuthResult → Option Response
  | .responded res _ => some res
  | .next _ _ => none

/-- The library calls the guard made. -/
def AuthResult.trace : AuthResult → List Event
  | .responded _ tr => tr
  | .next _ tr => tr

/-- The guard `requireAuth(req, res, next)`, with `cookie` the value of
`req.cookies.token`. -/
def requireAuth (lib : Lib) (env : Env) (now : Nat) (cookie : Option TokenString) :
    AuthResult :=
  match cookie with
  | none => .responded (fail 401 "Unauthorized") []
  | some token =>
    if token.falsy then .responded (fail 401 "Unauthorized") []
    else
      match jwtVerify lib token (JWT_SECRET env) now with
      | .error _ => .responded (fail 401 "Unauthorized") [.jwtVerify token]
      | .ok decoded => .next decoded [.jwtVerify token]

/-! ## Routes -/

/-- The body of `POST /api/signup`. -/
structure SignupBody where
  name : Option String
  email : Option String
  password : Option String
  deriving DecidableEq, Repr

/-- The body of `POST /api/login`. -/
structure LoginBody where
  email : Option String
  password : Option String
  deriving DecidableEq, Repr

/-- Where `POST /api/signup` stands when it first yields: it has responded, or
it is suspended at `await bcrypt.hash(password, 10)`. -/
inductive SignupStep where
  | respond (res : Response)
  | awaitHash (key name password : String)
  deriving DecidableEq, Repr

/-- The route `POST /api/signup` up to its `await`: the required-field check, the
password length check, the duplicate check, the call of `bcrypt.hash`. -/
def signupStart (lib : Lib) (s : Store) (body : SignupBody) :
    SignupStep × List Event :=
  match body.name, body.email, body.password with
  | some name, some email, some password =>
    if !truthy (some name) || !truthy (some email) || !truthy (some password) then
      (.respond (fail 400 "name, email, password are required"), [])
    else if jsLength password < 6 then
      (.respond (fail 400 "Password must be at least 6 characters"), [])
    else
      let key := normalizeEmail lib email
      if !(usersGet s key).falsy then
        (.respond (fail 409 "Email already registered"), [.usersRead key])
      else
        (.awaitHash key name password, [.usersRead key, .bcryptHash password])
  | _, _, _ => (.respond (fail 400 "name, email, password are required"), [])

/-- The route `POST /api/signup` after its `await`: the record is written and read back
for the response. Reading `.name` of `undefined` would throw into the
`catch`. -/
def signupResume (lib : Lib) (s : Store) (key name password salt now : String) :
    Outcome :=
  let passwordHash := lib.hash password 10 salt
  let s1 := usersSet s key
    { name := trim name, email := key, passwordHash := passwordHash, createdAt := now }
  match usersGet s1 key with
  | .undefined =>
    { store := s1, res := fail 500 "Server error",
      trace := [.usersWrite key, .usersRead key] }
  | v =>
    { store := s1,
      res := { status := 201, body := .user v.propName (some key), cookies := [] },
      trace := [.usersWrite key, .usersRead key] }

/-- The route `POST /api/signup`, run to completion with nothing in between. -/
def apiSignup (lib : Lib) (s : Store) (body : SignupBody) (salt now : String) :
    Outcome :=
  match signupStart lib s body with
  | (.respond res, tr) => { store := s, res := res, trace := tr }
  | (.awaitHash key name password, tr) =>
    let o := signupResume lib s key name password salt now
    { o with trace := tr ++ o.trace }

/-- The call `bcrypt.compare(password, hash)` as the handler calls it: the package
rejects when an argument is not a string. -/
def bcryptCompare (lib : Lib) (password : String) (hash : Option String) :
    Except String Bool :=
  match hash with
  | none => .error "Illegal arguments: string, undefined"
  | some h => .ok (lib.compare password h)

/-- The route `POST /api/login`. -/
def apiLogin (lib : Lib) (s : Store) (body : LoginBody) : Outcome :=
  match body.email, body.password with
  | some email, some password =>
    if !truthy (some email) || !truthy (some password) then
      { store := s, res := fail 400 "email and password are required", trace := [] }
    else
      let key := normalizeEmail lib email
      let user := usersGet s key
      if user.falsy then
        { store := s, res := fail 401 "Invalid credentials", trace := [.usersRead key] }
      else
        match bcryptCompare lib password user.propPasswordHash with
        | .error _ =>
          { store := s, res := fail 500 "Server error",
            trace := [.usersRead key, .bcryptCompare password] }
        | .ok valid =>
          if !valid then
            { store := s, res := fail 401 "Invalid credentials",
              trace := [.usersRead key, .bcryptCompare password] }
          else
            { store := s,
              res := { status := 200, body := .user user.propName (some key), cookies := [] },
              trace := [.usersRead key, .bcryptCompare password] }
  | _, _ => { store := s, res := fail 400 "email and password are required", trace := [] }

/-- The property key a value is converted to in `users[email]`. -/
def propertyKey : Option String → String
  | none => "undefined"
  | some e => e

/-- The handler of `GET /api/me`, behind the guard: `reqUser` is `req.user`. -/
def meHandler (s : Store) (reqUser : Claim) : Outcome :=
  let key := propertyKey reqUser.email
  let user := usersGet s key
  if user.falsy then
    { store := s, res := fail 401 "User not found", trace := [.usersRead key] }
  else
    { store := s,
      res := { status := 200, body := .user user.propName user.propEmail, cookies := [] },
      trace := [.usersRead key] }

/-- The route `GET /api/me`: the guard, then the handler if the guard called
`next`. -/
def apiMe (lib : Lib) (env : Env) (s : Store) (now : Nat)
    (cookie : Option TokenString) : Outcome :=
  match requireAuth lib env now cookie with
  | .responded res tr => { store := s, res := res, trace := tr }
  | .next reqUser tr =>
    let o := meHandler s reqUser
    { o with trace := tr ++ o.trace }

/-- The route `POST /api/logout`. -/
def apiLogout (s : Store) : Outcome :=
  { store := s,
    res := { status := 200, body := .message "Logged out", cookies := [] },
    trace := [] }

/-! ## Sequences of requests -/

/-- A request to one of the four routes, with the inputs the handler draws
from its environment (salt, clock). -/
inductive Request where
  | signup (body : SignupBody) (salt now : String)
  | login (body : LoginBody)
  | me (cookie : Option TokenString) (now : Nat)
  | logout
  deriving DecidableEq, Repr

/-- One request, run to completion. -/
def step (lib : Lib) (env : Env) (s : Store) : Request → Outcome
  | .signup body salt now => apiSignup lib s body salt now
  | .login body => apiLogin lib s body
  | .me cookie now => apiMe lib env s now cookie
  | .logout => apiLogout s

/-- The store after a sequence of requests, each run to completion. -/
def run (lib : Lib) (env : Env) (s : Store) : List Request → Store
  | [] => s
  | r :: rest => run lib env (step lib env s r).store rest

/-! ## Two signups in flight -/

/-- A signup request in flight. -/
inductive SignupTask where
  | fresh (body : SignupBody) (salt now : String)
  | suspended (key name password salt now : String)
  | done (res : Response)
  deriving DecidableEq, Repr

/-- One turn of a signup in flight: a fresh one runs up to its `await`, a
suspended one runs its continuation. -/
def advance (lib : Lib) (s : Store) : SignupTask → Store × SignupTask
  | .fresh body salt now =>
    match signupStart lib s body with
    | (.respond res, _) => (s, .done res)
    | (.awaitHash key name password, _) => (s, .suspended key name password salt now)
  | .suspended key name password salt now =>
    let o := signupResume lib s key name password salt now
    (o.store, .done o.res)
  | .done res => (s, .done res)

/-- Two signups under a schedule: `true` gives the turn to the first. -/
def interleave (lib : Lib) (s : Store) (a b : SignupTask) :
    List Bool → Store × SignupTask × SignupTask
  | [] => (s, a, b)
  | true :: rest =>
    let p := advance lib s a
    interleave lib p.1 p.2 b rest
  | false :: rest =>
    let p := advance lib s b
    interleave lib p.1 a p.2 rest

/-- A stand-in for what lies outside the sources, for runs on concrete
requests: the hash is the salt followed by the password, `compare` checks that
the hash ends with the password, and the case mapping touches `A`..`Z` only.
The runs below use ASCII emails, for which `toLowerCase` does not consult the
case mapping. -/
def plainLib : Lib where
  unicodeLower := asciiLower
  hash := fun password _ salt => ⟨salt.data ++ password.data⟩
  compare := fun password h => decide (password.data <:+ h.data)
  hmac := fun secret payload iat exp =>
    secret.length + (propertyKey payload.email).length + iat + exp

/-! ## The store: reads after writes -/

theorem ownProperty_usersSet_same (s : Store) (key : String) (r : UserRecord) :
    ownProperty (usersSet s key r) key = some r := by
  induction s with
  | nil => simp [usersSet, ownProperty]
  | cons p rest ih =>
    obtain ⟨k, r0⟩ := p
    by_cases h : k = key
    · simp [usersSet, ownProperty, h]
    · simp [usersSet, ownProperty, h, ih]

theorem ownProperty_usersSet_other (s : Store) (key k : String) (r : UserRecord)
    (h : k ≠ key) : ownProperty (usersSet s key r) k = ownProperty s k := by
  induction s with
  | nil =>
    have h1 : ¬ key = k := fun e => h e.symm
    simp [usersSet, ownProperty, h1]
  | cons p rest ih =>
    obtain ⟨k0, r0⟩ := p
    by_cases h0 : k0 = key
    · have h1 : ¬ key = k := fun e => h e.symm
      have h2 : ¬ k0 = k := fun e => h (e.symm.trans h0)
      simp [usersSet, ownProperty, h0, h1]
    · by_cases h3 : k0 = k
      · subst h3
        simp [usersSet, ownProperty, h0]
      · simp [usersSet, ownProperty, h0, h3, ih]

theorem usersGet_usersSet_same (s : Store) (key : String) (r : UserRecord) :
    usersGet (usersSet s key r) key = .record r := by
  simp [usersGet, ownProperty_usersSet_same]

theorem usersGet_of_ownProperty {s : Store} {key : String} {r : UserRecord}
    (h : ownProperty s key = some r) : usersGet s key = .record r := by
  simp [usersGet, h]

theorem ownProperty_eq_none_of_falsy {s : Store} {key : String}
    (h : (usersGet s key).falsy = true) : ownProperty s key = none := by
  unfold usersGet at h
  cases hq : ownProperty s key with
  | none => rfl
  | some r => rw [hq] at h; simp [Looked.falsy] at h

/-! ## Keys are lower-case and trimmed -/

theorem toNat_ofNat_shift (n : Nat) (h1 : 65 ≤ n) (h2 : n ≤ 90) :
    (Char.ofNat (n + 32)).toNat = n + 32 := by
  interval_cases n <;> rfl

theorem lowerChar_lowerChar (c : Char) : lowerChar (lowerChar c) = lowerChar c := by
  by_cases h : 65 ≤ c.toNat ∧ c.toNat ≤ 90
  · have h1 : lowerChar c = Char.ofNat (c.toNat + 32) := by simp [lowerChar, h]
    have h2 := toNat_ofNat_shift c.toNat h.1 h.2
    have h3 : ¬ (65 ≤ c.toNat + 32 ∧ c.toNat + 32 ≤ 90) := by omega
    have h4 : lowerChar (Char.ofNat (c.toNat + 32)) = Char.ofNat (c.toNat + 32) := by
      unfold lowerChar
      rw [h2, if_neg h3]
    rw [h1, h4]
  · have h1 : lowerChar c = c := by simp [lowerChar, h]
    rw [h1, h1]

theorem trim_data (s : String) :
    (trim s).data = (s.data.dropWhile isWhiteSpace).rdropWhile isWhiteSpace := rfl

theorem dropWhile_head_not {α : Type} (p : α → Bool) :
    ∀ (l : List α) (x : α) (rest : List α), l.dropWhile p = x :: rest → p x = false := by
  intro l
  induction l with
  | nil => intro x rest h; simp at h
  | cons y ys ih =>
    intro x rest h
    by_cases hy : p y = true
    · rw [List.dropWhile_cons_of_pos hy] at h
      exact ih x rest h
    · rw [List.dropWhile_cons_of_neg hy] at h
      cases h
      simpa using hy

theorem dropWhile_prefix_fixed {α : Type} (p : α → Bool) (l b t : List α)
    (hb : b ++ t = l.dropWhile p) : b.dropWhile p = b := by
  cases b with
  | nil => rfl
  | cons x xs =>
    have hx : p x = false := dropWhile_head_not p l x (xs ++ t) hb.symm
    rw [List.dropWhile_cons_of_neg (by simp [hx])]

theorem trim_trim (s : String) : trim (trim s) = trim s := by
  apply String.ext
  rw [trim_data, trim_data]
  obtain ⟨t, ht⟩ := List.rdropWhile_prefix isWhiteSpace (s.data.dropWhile isWhiteSpace)
  rw [dropWhile_prefix_fixed isWhiteSpace s.data _ t ht, List.rdropWhile_idempotent]

theorem trim_normalizeEmail (lib : Lib) (e : String) :
    trim (normalizeEmail lib e) = normalizeEmail lib e :=
  trim_trim _

/-- A key is lower-case as soon as the case mapping is idempotent and commutes
with trimming. -/
theorem toLowerCase_normalizeEmail (lib : Lib)
    (h1 : ∀ s, toLowerCase lib (toLowerCase lib s) = toLowerCase lib s)
    (h2 : ∀ s, toLowerCase lib (trim s) = trim (toLowerCase lib s)) (e : String) :
    toLowerCase lib (normalizeEmail lib e) = normalizeEmail lib e := by
  unfold normalizeEmail
  rw [h2, h1]

/-- The key of an ASCII email does not depend on the runtime's case mapping. -/
theorem normalizeEmail_ascii (lib : Lib) (e : String) (h : isAscii e = true) :
    normalizeEmail lib e = trim (asciiLower e) := by
  simp [normalizeEmail, toLowerCase, h]

theorem toLowerCase_plainLib (s : String) : toLowerCase plainLib s = asciiLower s := by
  unfold toLowerCase
  split <;> rfl

theorem asciiLower_asciiLower (s : String) : asciiLower (asciiLower s) = asciiLower s := by
  apply String.ext
  simp [asciiLower, lowerChar_lowerChar]

theorem isWhiteSpace_lowerChar (c : Char) : isWhiteSpace (lowerChar c) = isWhiteSpace c := by
  by_cases h : 65 ≤ c.toNat ∧ c.toNat ≤ 90
  · have h1 : lowerChar c = Char.ofNat (c.toNat + 32) := by simp [lowerChar, h]
    have h2 := toNat_ofNat_shift c.toNat h.1 h.2
    have hl : isWhiteSpace (Char.ofNat (c.toNat + 32)) = false := by
      simp only [isWhiteSpace, h2]
      simp
      omega
    have hr : isWhiteSpace c = false := by
      simp only [isWhiteSpace]
      simp
      omega
    rw [h1, hl, hr]
  · have h1 : lowerChar c = c := by simp [lowerChar, h]
    rw [h1]

theorem map_lowerChar_dropWhile (l : List Char) :
    (l.dropWhile isWhiteSpace).map lowerChar = (l.map lowerChar).dropWhile isWhiteSpace := by
  induction l with
  | nil => rfl
  | cons c rest ih =>
    by_cases hc : isWhiteSpace c = true
    · have hc2 : isWhiteSpace (lowerChar c) = true := by rw [isWhiteSpace_lowerChar]; exact hc
      rw [List.dropWhile_cons_of_pos hc, List.map_cons, List.dropWhile_cons_of_pos hc2, ih]
    · have hc2 : ¬ isWhiteSpace (lowerChar c) = true := by rw [isWhiteSpace_lowerChar]; exact hc
      rw [List.dropWhile_cons_of_neg hc, List.map_cons, List.dropWhile_cons_of_neg hc2]

theorem asciiLower_trim (s : String) : asciiLower (trim s) = trim (asciiLower s) := by
  apply String.ext
  simp only [asciiLower, trim]
  rw [List.map_reverse, map_lowerChar_dropWhile, List.map_reverse, map_lowerChar_dropWhile]

/-! ## What signup does, case by case -/

/-- A signup whose fields are all non-empty, whose password is long enough and
whose key reads as `undefined` suspends at the hash. -/
theorem signupStart_fresh (lib : Lib) (s : Store) (name email password : String)
    (hn : name ≠ "") (he : email ≠ "") (hp : 6 ≤ jsLength password)
    (hu : (usersGet s (normalizeEmail lib email)).falsy = true) :
    signupStart lib s ⟨some name, some email, some password⟩ =
      (.awaitHash (normalizeEmail lib email) name password,
        [.usersRead (normalizeEmail lib email), .bcryptHash password]) := by
  have hp0 : password ≠ "" := by
    rintro rfl
    simp [jsLength] at hp
  have h6 : ¬ jsLength password < 6 := by omega
  simp [signupStart, truthy, hn, he, hp0, h6, hu]

/-- A signup whose fields are all non-empty, whose password is long enough and
whose key reads as something truthy is turned away as a duplicate. -/
theorem signupStart_taken (lib : Lib) (s : Store) (name email password : String)
    (hn : name ≠ "") (he : email ≠ "") (hp : 6 ≤ jsLength password)
    (hu : (usersGet s (normalizeEmail lib email)).falsy = false) :
    signupStart lib s ⟨some name, some email, some password⟩ =
      (.respond (fail 409 "Email already registered"),
        [.usersRead (normalizeEmail lib email)]) := by
  have hp0 : password ≠ "" := by
    rintro rfl
    simp [jsLength] at hp
  have h6 : ¬ jsLength password < 6 := by omega
  simp [signupStart, truthy, hn, he, hp0, h6, hu]

/-- The continuation of a signup writes its record and answers 201 with the
trimmed name and the key. -/
theorem signupResume_eq (lib : Lib) (s : Store) (key name password salt now : String) :
    signupResume lib s key name password salt now =
      { store := usersSet s key
          { name := trim name, email := key,
            passwordHash := lib.hash password 10 salt, createdAt := now },
        res := { status := 201, body := .user (some (trim name)) (some key), cookies := [] },
        trace := [.usersWrite key, .usersRead key] } := by
  simp [signupResume, usersGet_usersSet_same, Looked.propName]

/-! ## Signup followed by login -/

/-- Signup then login, for a key that reads as `undefined`: signup answers 201
with the trimmed name and the key, and a login with the same email and
password right after answers 200 with the same identity. -/
theorem signup_then_login (lib : Lib) (s : Store) (name email password salt now : String)
    (hn : name ≠ "") (he : email ≠ "") (hp : 6 ≤ jsLength password)
    (hu : (usersGet s (normalizeEmail lib email)).falsy = true)
    (hc : lib.compare password (lib.hash password 10 salt) = true) :
    (apiSignup lib s ⟨some name, some email, some password⟩ salt now).res =
        { status := 201, body := .user (some (trim name)) (some (normalizeEmail lib email)),
          cookies := [] } ∧
      (apiLogin lib (apiSignup lib s ⟨some name, some email, some password⟩ salt now).store
          ⟨some email, some password⟩).res =
        { status := 200, body := .user (some (trim name)) (some (normalizeEmail lib email)),
          cookies := [] } := by
  have hp0 : password ≠ "" := by
    rintro rfl
    simp [jsLength] at hp
  have hs : apiSignup lib s ⟨some name, some email, some password⟩ salt now =
      { store := usersSet s (normalizeEmail lib email)
          { name := trim name, email := normalizeEmail lib email,
            passwordHash := lib.hash password 10 salt, createdAt := now },
        res := { status := 201, body := .user (some (trim name)) (some (normalizeEmail lib email)),
                 cookies := [] },
        trace := [.usersRead (normalizeEmail lib email), .bcryptHash password,
                  .usersWrite (normalizeEmail lib email), .usersRead (normalizeEmail lib email)] } := by
    simp [apiSignup, signupStart_fresh lib s name email password hn he hp hu, signupResume_eq]
  rw [hs]
  refine ⟨rfl, ?_⟩
  simp [apiLogin, truthy, he, hp0, usersGet_usersSet_same, Looked.falsy,
    Looked.propPasswordHash, Looked.propName, bcryptCompare, hc]

/-- C1, at the input where the code departs from it: on the empty store, where
`constructor` has no record, a signup with name `Ada`, email `constructor` and
the seven-character password `secret1` is answered 409 and writes nothing,
because `users['constructor']` reads the inherited function `Object`. -/
theorem signup_inherited_key_rejected (lib : Lib) (salt now : String) :
    ownProperty users "constructor" = none ∧
      usersGet users "constructor" = .protoFunction "Object" ∧
      6 ≤ jsLength "secret1" ∧
      apiSignup lib users ⟨some "Ada", some "constructor", some "secret1"⟩ salt now =
        { store := users, res := fail 409 "Email already registered",
          trace := [.usersRead "constructor"] } := by
  have k : normalizeEmail lib "constructor" = "constructor" := by
    rw [normalizeEmail_ascii lib _ (by decide)]
    decide
  have h : signupStart lib users ⟨some "Ada", some "constructor", some "secret1"⟩ =
      (.respond (fail 409 "Email already registered"), [.usersRead "constructor"]) := by
    have h0 := signupStart_taken lib users "Ada" "constructor" "secret1"
      (by decide) (by decide) (by decide) (by rw [k]; decide)
    rw [k] at h0
    exact h0
  refine ⟨rfl, by decide, by decide, ?_⟩
  simp [apiSignup, h]

/-! ## Login -/

/-- Login never sets a cookie. -/
theorem apiLogin_no_cookie (lib : Lib) (s : Store) (body : LoginBody) :
    (apiLogin lib s body).res.cookies = [] := by
  unfold apiLogin
  split
  · split
    · simp [fail]
    · dsimp only
      split
      · simp [fail]
      · split
        · simp [fail]
        · split <;> simp [fail]
  · simp [fail]

/-- C2, on the code: a login that succeeds answers 200 with the identity and
nothing else. On every store and for every body the response carries no
cookie; so it is for Ada, registered with `secret1`, whose login answers 200
with her name and email, an empty cookie list, and a trace of one lookup and
one password comparison. -/
theorem login_issues_no_token :
    (∀ (lib : Lib) (s : Store) (body : LoginBody), (apiLogin lib s body).res.cookies = []) ∧
      apiLogin plainLib
          (apiSignup plainLib users ⟨some "Ada", some "ada@example.com", some "secret1"⟩
            "salt" "t0").store
          ⟨some "ada@example.com", some "secret1"⟩ =
        { store := [("ada@example.com",
            { name := "Ada", email := "ada@example.com", passwordHash := "saltsecret1",
              createdAt := "t0" })],
          res := { status := 200, body := .user (some "Ada") (some "ada@example.com"),
                   cookies := [] },
          trace := [.usersRead "ada@example.com", .bcryptCompare "secret1"] } := by
  refine ⟨fun lib s body => apiLogin_no_cookie lib s body, ?_⟩
  decide

/-- Login with an email whose key reads as `undefined`, or whose record does
not accept the password, is answered 401 `Invalid credentials` either way. -/
theorem apiLogin_invalid (lib : Lib) (s : Store) (email password : String)
    (he : email ≠ "") (hp : password ≠ "")
    (h : usersGet s (normalizeEmail lib email) = .undefined ∨
      ∃ r, ownProperty s (normalizeEmail lib email) = some r ∧
        lib.compare password r.passwordHash = false) :
    (apiLogin lib s ⟨some email, some password⟩).res = fail 401 "Invalid credentials" := by
  rcases h with h | ⟨r, hr, hc⟩
  · simp [apiLogin, truthy, he, hp, h, Looked.falsy]
  · simp [apiLogin, truthy, he, hp, usersGet_of_ownProperty hr, Looked.falsy,
      Looked.propPasswordHash, bcryptCompare, hc]

/-- C4, at the input where the code departs from it: on the empty store no
signup created a record for `constructor`, yet a login with that email is
answered 500 `Server error`, while a login with another unknown email is
answered 401 `Invalid credentials`. The lookup reads the inherited function
`Object`, whose `passwordHash` is `undefined`, and `bcrypt.compare` rejects. -/
theorem login_inherited_key_server_error (lib : Lib) :
    ownProperty users "constructor" = none ∧
      apiLogin lib users ⟨some "constructor", some "secret1"⟩ =
        { store := users, res := fail 500 "Server error",
          trace := [.usersRead "constructor", .bcryptCompare "secret1"] } ∧
      apiLogin lib users ⟨some "nobody@example.com", some "secret1"⟩ =
        { store := users, res := fail 401 "Invalid credentials",
          trace := [.usersRead "nobody@example.com"] } := by
  have k1 : normalizeEmail lib "constructor" = "constructor" := by
    rw [normalizeEmail_ascii lib _ (by decide)]
    decide
  have k2 : normalizeEmail lib "nobody@example.com" = "nobody@example.com" := by
    rw [normalizeEmail_ascii lib _ (by decide)]
    decide
  have g1 : usersGet users "constructor" = .protoFunction "Object" := by decide
  have g2 : usersGet users "nobody@example.com" = .undefined := by decide
  refine ⟨rfl, ?_, ?_⟩
  · simp [apiLogin, truthy, k1, g1, Looked.falsy, Looked.propPasswordHash, bcryptCompare]
  · simp [apiLogin, truthy, k2, g2, Looked.falsy]

/-! ## The guard -/

/-- The guard on a cookie the codec accepts: `next` runs with `req.user` the
decoded claim, no response is sent, `verify` was called once. -/
theorem requireAuth_accept (lib : Lib) (env : Env) (now : Nat) (token : TokenString)
    (claim : Claim) (h : jwtVerify lib token (JWT_SECRET env) now = .ok claim) :
    requireAuth lib env now (some token) = .next claim [.jwtVerify token] := by
  have hf : token.falsy = false := by
    cases token with
    | malformed raw => simp [jwtVerify] at h
    | compact t => rfl
  simp [requireAuth, hf, h]

/-- The guard on a cookie the codec rejects: 401 `Unauthorized`, `next` does
not run, `req.user` stays unset. -/
theorem requireAuth_reject (lib : Lib) (env : Env) (now : Nat) (token : TokenString)
    (e : JwtError) (h : jwtVerify lib token (JWT_SECRET env) now = .error e) :
    (requireAuth lib env now (some token)).res = some (fail 401 "Unauthorized") ∧
      (requireAuth lib env now (some token)).nextCalled = false ∧
      (requireAuth lib env now (some token)).user = none := by
  unfold requireAuth
  by_cases hf : token.falsy = true
  · simp [hf, AuthResult.res, AuthResult.nextCalled, AuthResult.user]
  · simp [hf, h, AuthResult.res, AuthResult.nextCalled, AuthResult.user]

/-- C5: the guard calls `next` exactly when the request carries a token cookie
that `verify` accepts under the server secret; then `req.user` is the decoded
claim and the guard sends nothing. In every other case it answers 401
`Unauthorized`, does not call `next` and leaves `req.user` unset. Without a
cookie `verify` is not called. -/
theorem requireAuth_spec (lib : Lib) (env : Env) (now : Nat)
    (cookie : Option TokenString) :
    ((requireAuth lib env now cookie).nextCalled = true ↔
        ∃ token claim, cookie = some token ∧
          jwtVerify lib token (JWT_SECRET env) now = .ok claim) ∧
      (∀ token claim, cookie = some token →
        jwtVerify lib token (JWT_SECRET env) now = .ok claim →
        (requireAuth lib env now cookie).user = some claim ∧
          (requireAuth lib env now cookie).res = none) ∧
      ((requireAuth lib env now cookie).nextCalled = false →
        (requireAuth lib env now cookie).res = some (fail 401 "Unauthorized") ∧
          (requireAuth lib env now cookie).user = none) ∧
      (cookie = none → ∀ token, Event.jwtVerify token ∉ (requireAuth lib env now cookie).trace) := by
  cases cookie with
  | none => simp [requireAuth, AuthResult.res, AuthResult.nextCalled, AuthResult.user,
      AuthResult.trace]
  | some token =>
    cases hv : jwtVerify lib token (JWT_SECRET env) now with
    | ok claim =>
      have ha := requireAuth_accept lib env now token claim hv
      refine ⟨?_, ?_, ?_, ?_⟩
      · simp [ha, hv, AuthResult.nextCalled]
      · intro token1 claim1 h1 h2
        cases h1
        rw [hv] at h2
        cases h2
        simp [ha, AuthResult.user, AuthResult.res]
      · simp [ha, AuthResult.nextCalled]
      · intro h
        cases h
    | error e =>
      obtain ⟨h1, h2, h3⟩ := requireAuth_reject lib env now token e hv
      refine ⟨?_, ?_, ?_, ?_⟩
      · simp only [h2, Bool.false_eq_true, false_iff]
        rintro ⟨token1, claim1, h4, h5⟩
        cases h4
        rw [hv] at h5
        cases h5
      · intro token1 claim1 h4 h5
        cases h4
        rw [hv] at h5
        cases h5
      · intro _
        exact ⟨h1, h3⟩
      · intro h
        cases h

/-! ## Issue, then verify -/

/-- C10: the cookie `setAuthCookie` adds at time `t0` is the HTTP-only cookie
`token`; presented to the guard before `t0` plus 24 hours it is accepted, with
`req.user` the very claim that was signed, and presented after `t0` plus 24
hours it is rejected with 401, `verify` reporting it expired. -/
theorem issued_token_roundtrip (lib : Lib) (env : Env) (res : Response) (claim : Claim)
    (t0 now : Nat) :
    ∃ token,
      (setAuthCookie lib env t0 res claim).cookies =
          res.cookies ++
            [{ name := "token", value := token, httpOnly := true, secure := isProd env }] ∧
        (now < t0 + 24 * 60 * 60 →
          jwtVerify lib token (JWT_SECRET env) now = .ok claim ∧
            requireAuth lib env now (some token) = .next claim [.jwtVerify token]) ∧
        (t0 + 24 * 60 * 60 < now →
          jwtVerify lib token (JWT_SECRET env) now = .error .expired ∧
            requireAuth lib env now (some token) =
              .responded (fail 401 "Unauthorized") [.jwtVerify token]) := by
  refine ⟨jwtSign lib claim (JWT_SECRET env) expiresIn t0, rfl, ?_, ?_⟩
  · intro h
    have hv : jwtVerify lib (jwtSign lib claim (JWT_SECRET env) expiresIn t0)
        (JWT_SECRET env) now = .ok claim := by
      have h1 : ¬ t0 + expiresIn ≤ now := by
        simp only [expiresIn]
        omega
      simp [jwtVerify, jwtSign, h1]
    exact ⟨hv, requireAuth_accept lib env now _ claim hv⟩
  · intro h
    have hv : jwtVerify lib (jwtSign lib claim (JWT_SECRET env) expiresIn t0)
        (JWT_SECRET env) now = .error .expired := by
      have h1 : t0 + expiresIn ≤ now := by
        simp only [expiresIn]
        omega
      simp [jwtVerify, jwtSign, h1]
    refine ⟨hv, ?_⟩
    have hf : (jwtSign lib claim (JWT_SECRET env) expiresIn t0).falsy = false := rfl
    simp only [requireAuth, hf, hv]
    rfl

/-! ## Two signups for one address -/

/-- C8, at the schedule where the code departs from it: Ada and Eve sign up
for the same normalized address on the empty store, and each passes the
duplicate check before either continuation runs. Both are answered 201 and the
record left in the store is Eve's, written over Ada's. Run one after the other
the second is answered 409. -/
theorem interleaved_signups_both_created (lib : Lib) :
    interleave lib users
        (.fresh ⟨some "Ada", some "ada@example.com", some "secret1"⟩ "saltA" "t1")
        (.fresh ⟨some "Eve", some " Ada@Example.com", some "secret2"⟩ "saltB" "t2")
        [true, false, true, false] =
      ([("ada@example.com",
          { name := "Eve", email := "ada@example.com",
            passwordHash := lib.hash "secret2" 10 "saltB", createdAt := "t2" })],
        .done { status := 201, body := .user (some "Ada") (some "ada@example.com"),
                cookies := [] },
        .done { status := 201, body := .user (some "Eve") (some "ada@example.com"),
                cookies := [] }) ∧
      (interleave lib users
        (.fresh ⟨some "Ada", some "ada@example.com", some "secret1"⟩ "saltA" "t1")
        (.fresh ⟨some "Eve", some " Ada@Example.com", some "secret2"⟩ "saltB" "t2")
        [true, true, false, false]).2.2 = .done (fail 409 "Email already registered") := by
  have ka : normalizeEmail lib "ada@example.com" = "ada@example.com" := by
    rw [normalizeEmail_ascii lib _ (by decide)]
    decide
  have hk : normalizeEmail lib " Ada@Example.com" = "ada@example.com" := by
    rw [normalizeEmail_ascii lib _ (by decide)]
    decide
  have ha : signupStart lib users ⟨some "Ada", some "ada@example.com", some "secret1"⟩ =
      (.awaitHash "ada@example.com" "Ada" "secret1",
        [.usersRead "ada@example.com", .bcryptHash "secret1"]) := by
    have h0 := signupStart_fresh lib users "Ada" "ada@example.com" "secret1"
      (by decide) (by decide) (by decide) (by rw [ka]; decide)
    rw [ka] at h0
    exact h0
  have hb : signupStart lib users ⟨some "Eve", some " Ada@Example.com", some "secret2"⟩ =
      (.awaitHash "ada@example.com" "Eve" "secret2",
        [.usersRead "ada@example.com", .bcryptHash "secret2"]) := by
    have h0 := signupStart_fresh lib users "Eve" " Ada@Example.com" "secret2"
      (by decide) (by decide) (by decide) (by rw [hk]; decide)
    rw [hk] at h0
    exact h0
  have ta : trim "Ada" = "Ada" := by decide
  have tb : trim "Eve" = "Eve" := by decide
  have hb2 : ∀ r : UserRecord,
      signupStart lib [("ada@example.com", r)]
        ⟨some "Eve", some " Ada@Example.com", some "secret2"⟩ =
      (.respond (fail 409 "Email already registered"), [.usersRead "ada@example.com"]) := by
    intro r
    have hl : 6 ≤ jsLength "secret2" := by decide
    have := signupStart_taken lib [("ada@example.com", r)] "Eve" " Ada@Example.com" "secret2"
      (by decide) (by decide) hl (by rw [hk]; simp [usersGet, ownProperty, Looked.falsy])
    rw [hk] at this
    exact this
  have a1 : advance lib users
      (.fresh ⟨some "Ada", some "ada@example.com", some "secret1"⟩ "saltA" "t1") =
      (users, .suspended "ada@example.com" "Ada" "secret1" "saltA" "t1") := by
    simp only [advance, ha]
  have b1 : advance lib users
      (.fresh ⟨some "Eve", some " Ada@Example.com", some "secret2"⟩ "saltB" "t2") =
      (users, .suspended "ada@example.com" "Eve" "secret2" "saltB" "t2") := by
    simp only [advance, hb]
  have a2 : advance lib users (.suspended "ada@example.com" "Ada" "secret1" "saltA" "t1") =
      ([("ada@example.com",
          { name := "Ada", email := "ada@example.com",
            passwordHash := lib.hash "secret1" 10 "saltA", createdAt := "t1" })],
        .done { status := 201, body := .user (some "Ada") (some "ada@example.com"),
                cookies := [] }) := by
    simp only [advance, signupResume_eq, ta, users, usersSet]
  have b2 : ∀ r : UserRecord,
      advance lib [("ada@example.com", r)]
        (.suspended "ada@example.com" "Eve" "secret2" "saltB" "t2") =
      ([("ada@example.com",
          { name := "Eve", email := "ada@example.com",
            passwordHash := lib.hash "secret2" 10 "saltB", createdAt := "t2" })],
        .done { status := 201, body := .user (some "Eve") (some "ada@example.com"),
                cookies := [] }) := by
    intro r
    simp [advance, signupResume_eq, tb, usersSet]
  have b3 : ∀ r : UserRecord,
      advance lib [("ada@example.com", r)]
        (.fresh ⟨some "Eve", some " Ada@Example.com", some "secret2"⟩ "saltB" "t2") =
      ([("ada@example.com", r)], .done (fail 409 "Email already registered")) := by
    intro r
    simp only [advance, hb2]
  constructor
  · simp only [interleave, a1, b1, a2, b2]
  · simp only [interleave, a1, a2, b3]
    rfl

/-! ## Sequences of requests: what the store holds -/

/-- A signup that passes every check answers 201 and writes its record. -/
theorem apiSignup_created (lib : Lib) (s : Store) (name email password salt now : String)
    (hn : name ≠ "") (he : email ≠ "") (hp : 6 ≤ jsLength password)
    (hu : (usersGet s (normalizeEmail lib email)).falsy = true) :
    apiSignup lib s ⟨some name, some email, some password⟩ salt now =
      { store := usersSet s (normalizeEmail lib email)
          { name := trim name, email := normalizeEmail lib email,
            passwordHash := lib.hash password 10 salt, createdAt := now },
        res := { status := 201, body := .user (some (trim name)) (some (normalizeEmail lib email)),
                 cookies := [] },
        trace := [.usersRead (normalizeEmail lib email), .bcryptHash password,
                  .usersWrite (normalizeEmail lib email), .usersRead (normalizeEmail lib email)] } := by
  simp [apiSignup, signupStart_fresh lib s name email password hn he hp hu, signupResume_eq]

/-- A signup that passes the field and length checks but whose key reads as
something truthy is answered 409 and writes nothing. -/
theorem apiSignup_taken (lib : Lib) (s : Store) (name email password salt now : String)
    (hn : name ≠ "") (he : email ≠ "") (hp : 6 ≤ jsLength password)
    (hu : (usersGet s (normalizeEmail lib email)).falsy = false) :
    apiSignup lib s ⟨some name, some email, some password⟩ salt now =
      { store := s, res := fail 409 "Email already registered",
        trace := [.usersRead (normalizeEmail lib email)] } := by
  simp [apiSignup, signupStart_taken lib s name email password hn he hp hu]

/-- A signup either leaves the store alone and does not answer 201, or it
passed every check. -/
theorem apiSignup_cases (lib : Lib) (s : Store) (body : SignupBody) (salt now : String) :
    ((apiSignup lib s body salt now).store = s ∧
        (apiSignup lib s body salt now).res.status ≠ 201) ∨
      ∃ name email password,
        body = ⟨some name, some email, some password⟩ ∧ name ≠ "" ∧ email ≠ "" ∧
          6 ≤ jsLength password ∧ (usersGet s (normalizeEmail lib email)).falsy = true := by
  obtain ⟨n, e, p⟩ := body
  cases n with
  | none => left; simp [apiSignup, signupStart, fail]
  | some name =>
    cases e with
    | none => left; simp [apiSignup, signupStart, fail]
    | some email =>
      cases p with
      | none => left; simp [apiSignup, signupStart, fail]
      | some password =>
        by_cases hn : name = ""
        · left; simp [apiSignup, signupStart, truthy, hn, fail]
        by_cases he : email = ""
        · left; simp [apiSignup, signupStart, truthy, he, fail]
        by_cases hp0 : password = ""
        · left; simp [apiSignup, signupStart, truthy, hp0, fail]
        by_cases h6 : jsLength password < 6
        · left; simp [apiSignup, signupStart, truthy, hn, he, hp0, h6, fail]
        by_cases hu : (usersGet s (normalizeEmail lib email)).falsy = true
        · right
          exact ⟨name, email, password, rfl, hn, he, by omega, hu⟩
        · left
          have hu2 : (usersGet s (normalizeEmail lib email)).falsy = false := by simpa using hu
          simp [apiSignup, signupStart_taken lib s name email password hn he (by omega) hu2, fail]

theorem apiLogin_store (lib : Lib) (s : Store) (body : LoginBody) :
    (apiLogin lib s body).store = s := by
  unfold apiLogin
  split
  · split
    · rfl
    · dsimp only
      split
      · rfl
      · split
        · rfl
        · split <;> rfl
  · rfl

theorem meHandler_store (s : Store) (reqUser : Claim) : (meHandler s reqUser).store = s := by
  unfold meHandler
  dsimp only
  split <;> rfl

theorem apiMe_store (lib : Lib) (env : Env) (s : Store) (now : Nat)
    (cookie : Option TokenString) : (apiMe lib env s now cookie).store = s := by
  unfold apiMe
  split
  · rfl
  · exact meHandler_store s _

/-- One request either leaves the store alone, or is a signup that passed
every check and wrote its record under a key that read as `undefined`. -/
theorem step_cases (lib : Lib) (env : Env) (s : Store) (req : Request) :
    (step lib env s req).store = s ∨
      ∃ name email password salt now,
        req = .signup ⟨some name, some email, some password⟩ salt now ∧
          name ≠ "" ∧ email ≠ "" ∧ 6 ≤ jsLength password ∧
          (usersGet s (normalizeEmail lib email)).falsy = true := by
  cases req with
  | signup body salt now =>
    rcases apiSignup_cases lib s body salt now with h | ⟨name, email, password, h⟩
    · left; exact h.1
    · right
      obtain ⟨hb, hrest⟩ := h
      exact ⟨name, email, password, salt, now, by rw [hb], hrest⟩
  | login body => left; exact apiLogin_store lib s body
  | me cookie now => left; exact apiMe_store lib env s now cookie
  | logout => left; rfl

/-- One request never changes or removes a record that is there. -/
theorem step_keeps (lib : Lib) (env : Env) (s : Store) (req : Request) (k : String)
    (r : UserRecord) (h : ownProperty s k = some r) :
    ownProperty (step lib env s req).store k = some r := by
  rcases step_cases lib env s req with h1 | ⟨name, email, password, salt, now, hreq, hn, he, hp, hu⟩
  · rw [h1]; exact h
  · subst hreq
    have hne : k ≠ normalizeEmail lib email := by
      intro hk
      have := ownProperty_eq_none_of_falsy hu
      rw [← hk, h] at this
      cases this
    simp only [step, apiSignup_created lib s name email password salt now hn he hp hu]
    rw [ownProperty_usersSet_other _ _ _ _ hne]
    exact h

/-- No sequence of requests changes or removes a record that is there. -/
theorem run_keeps (lib : Lib) (env : Env) (reqs : List Request) :
    ∀ (s : Store) (k : String) (r : UserRecord),
      ownProperty s k = some r → ownProperty (run lib env s reqs) k = some r := by
  induction reqs with
  | nil => intro s k r h; exact h
  | cons q rest ih =>
    intro s k r h
    exact ih _ k r (step_keeps lib env s q k r h)

theorem run_append (lib : Lib) (env : Env) (a b : List Request) :
    ∀ s : Store, run lib env s (a ++ b) = run lib env (run lib env s a) b := by
  induction a with
  | nil => intro s; rfl
  | cons q rest ih => intro s; exact ih _

/-- Every record found after a sequence of requests was there at the start or
was written, as found, by a signup of the sequence that passed every check. -/
theorem record_origin (lib : Lib) (env : Env) (reqs : List Request) :
    ∀ (s : Store) (k : String) (r : UserRecord),
      ownProperty (run lib env s reqs) k = some r →
      ownProperty s k = some r ∨
        ∃ pre post name email password salt now,
          reqs = pre ++ .signup ⟨some name, some email, some password⟩ salt now :: post ∧
            name ≠ "" ∧ email ≠ "" ∧ 6 ≤ jsLength password ∧
            normalizeEmail lib email = k ∧
            (usersGet (run lib env s pre) k).falsy = true ∧
            r = { name := trim name, email := k,
                  passwordHash := lib.hash password 10 salt, createdAt := now } := by
  induction reqs with
  | nil => intro s k r h; left; exact h
  | cons q rest ih =>
    intro s k r h
    rcases ih _ k r h with h1 | ⟨pre, post, name, email, password, salt, now, hreq, hrest⟩
    · rcases step_cases lib env s q with h2 |
        ⟨name, email, password, salt, now, hreq, hn, he, hp, hu⟩
      · left; rw [h2] at h1; exact h1
      · subst hreq
        simp only [step, apiSignup_created lib s name email password salt now hn he hp hu] at h1
        by_cases hk : k = normalizeEmail lib email
        · right
          subst hk
          rw [ownProperty_usersSet_same] at h1
          cases h1
          exact ⟨[], rest, name, email, password, salt, now, rfl, hn, he, hp, rfl, hu, rfl⟩
        · left
          rw [ownProperty_usersSet_other _ _ _ _ hk] at h1
          exact h1
    · right
      exact ⟨q :: pre, post, name, email, password, salt, now, by rw [hreq]; rfl, hrest⟩

theorem usersGet_record_iff (s : Store) (k : String) (r : UserRecord) :
    usersGet s k = .record r ↔ ownProperty s k = some r := by
  unfold usersGet
  cases h : ownProperty s k with
  | some r0 => simp
  | none =>
    simp only [objectPrototype]
    split_ifs <;> simp

/-- A signup that answers 201 passed every check. -/
theorem apiSignup_201 (lib : Lib) (s : Store) (body : SignupBody) (salt now : String)
    (h : (apiSignup lib s body salt now).res.status = 201) :
    ∃ name email password,
      body = ⟨some name, some email, some password⟩ ∧ name ≠ "" ∧ email ≠ "" ∧
        6 ≤ jsLength password ∧ (usersGet s (normalizeEmail lib email)).falsy = true := by
  rcases apiSignup_cases lib s body salt now with h1 | h1
  · exact absurd h h1.2
  · exact h1

/-! ## Duplicate signups -/

/-- C3, as the code has it: once a signup with `e1` was answered 201, then,
after any further requests, a signup with a non-empty `e2` that normalizes to
the same key, any non-empty name and any password of at least 6 code units is
answered 409 `Email already registered` and leaves the store as it was; the
record under the key is still the one the first signup wrote. -/
theorem duplicate_signup_rejected (lib : Lib) (env : Env) (s : Store)
    (name1 e1 pw1 salt1 now1 : String) (mid : List Request)
    (name2 e2 pw2 salt2 now2 : String)
    (h1 : (apiSignup lib s ⟨some name1, some e1, some pw1⟩ salt1 now1).res.status = 201)
    (hk : normalizeEmail lib e1 = normalizeEmail lib e2)
    (hn2 : name2 ≠ "") (he2 : e2 ≠ "") (hp2 : 6 ≤ jsLength pw2) :
    apiSignup lib
        (run lib env (apiSignup lib s ⟨some name1, some e1, some pw1⟩ salt1 now1).store mid)
        ⟨some name2, some e2, some pw2⟩ salt2 now2 =
      { store := run lib env
          (apiSignup lib s ⟨some name1, some e1, some pw1⟩ salt1 now1).store mid,
        res := fail 409 "Email already registered",
        trace := [.usersRead (normalizeEmail lib e2)] } ∧
      ownProperty
          (run lib env (apiSignup lib s ⟨some name1, some e1, some pw1⟩ salt1 now1).store mid)
          (normalizeEmail lib e1) =
        some { name := trim name1, email := normalizeEmail lib e1,
               passwordHash := lib.hash pw1 10 salt1, createdAt := now1 } := by
  obtain ⟨n, e, p, hb, hn, he, hp, hu⟩ := apiSignup_201 lib s _ salt1 now1 h1
  cases hb
  have hw : ownProperty
      (apiSignup lib s ⟨some name1, some e1, some pw1⟩ salt1 now1).store (normalizeEmail lib e1) =
      some { name := trim name1, email := normalizeEmail lib e1,
             passwordHash := lib.hash pw1 10 salt1, createdAt := now1 } := by
    rw [apiSignup_created lib s name1 e1 pw1 salt1 now1 hn he hp hu]
    exact ownProperty_usersSet_same _ _ _
  have hrec := run_keeps lib env mid _ (normalizeEmail lib e1) _ hw
  refine ⟨?_, hrec⟩
  have hf : (usersGet
      (run lib env (apiSignup lib s ⟨some name1, some e1, some pw1⟩ salt1 now1).store mid)
      (normalizeEmail lib e2)).falsy = false := by
    rw [← hk, usersGet_of_ownProperty hrec]
    rfl
  exact apiSignup_taken lib _ name2 e2 pw2 salt2 now2 hn2 he2 hp2 hf

/-- The duplicate check at work: Ada signs up, logs out, and Eve's signup with
the same address in another spelling is turned away. -/
theorem duplicate_signup_rejected_witness :
    apiSignup plainLib
        (run plainLib ⟨none, none⟩
          (apiSignup plainLib users ⟨some "Ada", some "Ada@Example.com", some "secret1"⟩
            "salt" "t0").store [.logout])
        ⟨some "Eve", some " ada@example.com ", some "secret2"⟩ "pepper" "t1" =
      { store := run plainLib ⟨none, none⟩
          (apiSignup plainLib users ⟨some "Ada", some "Ada@Example.com", some "secret1"⟩
            "salt" "t0").store [.logout],
        res := fail 409 "Email already registered",
        trace := [.usersRead (normalizeEmail plainLib " ada@example.com ")] } ∧
      ownProperty
          (run plainLib ⟨none, none⟩
            (apiSignup plainLib users ⟨some "Ada", some "Ada@Example.com", some "secret1"⟩
              "salt" "t0").store [.logout])
          (normalizeEmail plainLib "Ada@Example.com") =
        some { name := trim "Ada", email := normalizeEmail plainLib "Ada@Example.com",
               passwordHash := plainLib.hash "secret1" 10 "salt", createdAt := "t0" } :=
  duplicate_signup_rejected plainLib ⟨none, none⟩ users "Ada" "Ada@Example.com" "secret1"
    "salt" "t0" [.logout] "Eve" " ada@example.com " "secret2" "pepper" "t1"
    (by decide) (by decide) (by decide) (by decide) (by decide)

/-- C3 fails as stated: the emails `' '` and `''` differ only in white space
and normalize to the same key; the signup with `' '` is answered 201, and the
later signup with `''` is answered 400 `name, email, password are required`,
not 409. -/
theorem duplicate_signup_empty_email :
    normalizeEmail plainLib " " = normalizeEmail plainLib "" ∧
      (apiSignup plainLib users ⟨some "Ada", some " ", some "secret1"⟩ "salt" "t0").res.status
        = 201 ∧
      (apiSignup plainLib
          (apiSignup plainLib users ⟨some "Ada", some " ", some "secret1"⟩ "salt" "t0").store
          ⟨some "Eve", some "", some "secret2"⟩ "pepper" "t1").res =
        fail 400 "name, email, password are required" := by
  decide

/-! ## The store invariant -/

/-- C7: after any sequence of signup, login, me and logout requests on the
empty store, a lookup of `k` finds a record exactly when an earlier signup
whose email normalizes to `k` was answered 201; a record found under `k` has
email `k`, and `k` is trimmed and lower-case: it is the trimmed lower-casing
of an email, and it is a fixed point of `toLowerCase` whenever the runtime's
case mapping is idempotent and commutes with trimming; and the record found is
the one that signup wrote, whatever requests came after it. -/
theorem store_holds_exactly_signups (lib : Lib) (env : Env) (reqs : List Request)
    (k : String) :
    ((∃ r, usersGet (run lib env users reqs) k = .record r) ↔
        ∃ pre post body salt now email,
          reqs = pre ++ .signup body salt now :: post ∧ body.email = some email ∧
            normalizeEmail lib email = k ∧
            (step lib env (run lib env users pre) (.signup body salt now)).res.status = 201) ∧
      (∀ r, usersGet (run lib env users reqs) k = .record r →
        r.email = k ∧ trim k = k ∧ (∃ email, k = trim (toLowerCase lib email)) ∧
          ((∀ s, toLowerCase lib (toLowerCase lib s) = toLowerCase lib s) →
            (∀ s, toLowerCase lib (trim s) = trim (toLowerCase lib s)) →
            toLowerCase lib k = k)) ∧
      (∀ pre post name email password salt now,
        reqs = pre ++ .signup ⟨some name, some email, some password⟩ salt now :: post →
        normalizeEmail lib email = k →
        (step lib env (run lib env users pre)
          (.signup ⟨some name, some email, some password⟩ salt now)).res.status = 201 →
        usersGet (run lib env users reqs) k =
          .record { name := trim name, email := k,
                    passwordHash := lib.hash password 10 salt, createdAt := now }) := by
  have hC : ∀ pre post name email password salt now,
      reqs = pre ++ .signup ⟨some name, some email, some password⟩ salt now :: post →
      normalizeEmail lib email = k →
      (step lib env (run lib env users pre)
        (.signup ⟨some name, some email, some password⟩ salt now)).res.status = 201 →
      usersGet (run lib env users reqs) k =
        .record { name := trim name, email := k,
                  passwordHash := lib.hash password 10 salt, createdAt := now } := by
    intro pre post name email password salt now hreq hk h201
    obtain ⟨n, e, p, hb, hn, he, hp, hu⟩ := apiSignup_201 lib _ _ salt now h201
    cases hb
    subst hk
    rw [hreq, run_append]
    apply usersGet_of_ownProperty
    simp only [run]
    apply run_keeps
    simp only [step, apiSignup_created lib _ name email password salt now hn he hp hu]
    exact ownProperty_usersSet_same _ _ _
  have hO : ∀ r, usersGet (run lib env users reqs) k = .record r →
      ∃ pre post name email password salt now,
        reqs = pre ++ .signup ⟨some name, some email, some password⟩ salt now :: post ∧
          name ≠ "" ∧ email ≠ "" ∧ 6 ≤ jsLength password ∧
          normalizeEmail lib email = k ∧
          (usersGet (run lib env users pre) k).falsy = true ∧
          r = { name := trim name, email := k,
                passwordHash := lib.hash password 10 salt, createdAt := now } := by
    intro r hr
    rcases record_origin lib env reqs users k r ((usersGet_record_iff _ _ _).1 hr) with h | h
    · simp [users, ownProperty] at h
    · exact h
  refine ⟨⟨?_, ?_⟩, ?_, hC⟩
  · rintro ⟨r, hr⟩
    obtain ⟨pre, post, name, email, password, salt, now, hreq, hn, he, hp, hk, hu, _⟩ := hO r hr
    refine ⟨pre, post, ⟨some name, some email, some password⟩, salt, now, email, hreq, rfl,
      hk, ?_⟩
    rw [← hk] at hu
    simp only [step, apiSignup_created lib _ name email password salt now hn he hp hu]
  · rintro ⟨pre, post, body, salt, now, email, hreq, hbe, hk, h201⟩
    obtain ⟨n, e, p, hb, _⟩ := apiSignup_201 lib _ _ salt now h201
    subst hb
    cases hbe
    exact ⟨_, hC pre post n email p salt now hreq hk h201⟩
  · intro r hr
    obtain ⟨pre, post, name, email, password, salt, now, _, _, _, _, hk, _, hrec⟩ := hO r hr
    refine ⟨by rw [hrec], ?_, ⟨email, hk.symm⟩, ?_⟩
    · rw [← hk]; exact trim_normalizeEmail lib email
    · intro h1 h2
      rw [← hk]
      exact toLowerCase_normalizeEmail lib h1 h2 email

/-- The invariant at work, with a case mapping that is idempotent and commutes
with trimming: Ada signs up as ` Ada@Example.com` and logs out; her record is
found under `ada@example.com`, a key that is trimmed and lower-case. -/
theorem store_holds_exactly_signups_witness :
    usersGet
        (run plainLib ⟨none, none⟩ users
          [.signup ⟨some "Ada", some " Ada@Example.com", some "secret1"⟩ "salt" "t0",
            .logout])
        "ada@example.com" =
      .record { name := trim "Ada", email := "ada@example.com",
                passwordHash := plainLib.hash "secret1" 10 "salt", createdAt := "t0" } ∧
      trim "ada@example.com" = "ada@example.com" ∧
      toLowerCase plainLib "ada@example.com" = "ada@example.com" :=
  have h3 := (store_holds_exactly_signups plainLib ⟨none, none⟩
    [.signup ⟨some "Ada", some " Ada@Example.com", some "secret1"⟩ "salt" "t0", .logout]
    "ada@example.com").2.2 [] [.logout] "Ada" " Ada@Example.com" "secret1" "salt" "t0"
    rfl (by decide) (by decide)
  have h2 := (store_holds_exactly_signups plainLib ⟨none, none⟩
    [.signup ⟨some "Ada", some " Ada@Example.com", some "secret1"⟩ "salt" "t0", .logout]
    "ada@example.com").2.1 _ h3
  ⟨h3, h2.2.1,
    h2.2.2.2 (fun s => by simp [toLowerCase_plainLib, asciiLower_asciiLower])
      (fun s => by simp [toLowerCase_plainLib, asciiLower_trim])⟩

/-! ## The password length check -/

/-- C9: a signup whose name, email and password are all present (non-empty, as
the first check takes them) and whose password is shorter than 6 code units is
answered 400 `Password must be at least 6 characters`; the store is left as it
was and the trace is empty, so neither the duplicate check nor the hash ran.
Hence every record found after any sequence of requests on the empty store
holds the hash of a password of at least 6 code units. -/
theorem weak_password_rejected (lib : Lib) (env : Env) (s : Store)
    (name email password salt now : String) (reqs : List Request)
    (hn : name ≠ "") (he : email ≠ "") (hp0 : password ≠ "")
    (hp : jsLength password < 6) :
    apiSignup lib s ⟨some name, some email, some password⟩ salt now =
        { store := s, res := fail 400 "Password must be at least 6 characters",
          trace := [] } ∧
      ∀ k r, ownProperty (run lib env users reqs) k = some r →
        ∃ pw sl, 6 ≤ jsLength pw ∧ r.passwordHash = lib.hash pw 10 sl := by
  constructor
  · simp [apiSignup, signupStart, truthy, hn, he, hp0, hp]
  · intro k r hr
    rcases record_origin lib env reqs users k r hr with h | h
    · simp [users, ownProperty] at h
    · obtain ⟨_, _, _, _, password, salt, _, _, _, _, hp6, _, _, hrec⟩ := h
      exact ⟨password, salt, hp6, by rw [hrec]⟩

/-- The length check at work: the password `abc` is turned away, and the one
record a signup with `secret1` leaves holds the hash of a long enough
password. -/
theorem weak_password_rejected_witness :
    apiSignup plainLib users ⟨some "Ada", some "ada@example.com", some "abc"⟩ "salt" "t0" =
        { store := users, res := fail 400 "Password must be at least 6 characters",
          trace := [] } ∧
      ∀ k r,
        ownProperty
            (run plainLib ⟨none, none⟩ users
              [.signup ⟨some "Ada", some "ada@example.com", some "secret1"⟩ "salt" "t0"])
            k = some r →
          ∃ pw sl, 6 ≤ jsLength pw ∧ r.passwordHash = plainLib.hash pw 10 sl :=
  weak_password_rejected plainLib ⟨none, none⟩ users "Ada" "ada@example.com" "abc" "salt" "t0"
    [.signup ⟨some "Ada", some "ada@example.com", some "secret1"⟩ "salt" "t0"]
    (by decide) (by decide) (by decide) (by decide)

/-! ## The identity route -/

/-- C6, as the code has it: for a claim the guard accepts, if the store holds
a record under the claim's email the route answers 200 with that record's name
and email; if the lookup under the claim's email reads `undefined` (no record,
and not the name of a member of `Object.prototype`) it answers 401 with the
error `User not found`. -/
theorem me_after_guard (lib : Lib) (env : Env) (s : Store) (now : Nat)
    (token : TokenString) (claim : Claim)
    (hv : jwtVerify lib token (JWT_SECRET env) now = .ok claim) :
    (∀ r, ownProperty s (propertyKey claim.email) = some r →
        (apiMe lib env s now (some token)).res =
          { status := 200, body := .user (some r.name) (some r.email), cookies := [] }) ∧
      (usersGet s (propertyKey claim.email) = .undefined →
        (apiMe lib env s now (some token)).res = fail 401 "User not found") := by
  have ha := requireAuth_accept lib env now token claim hv
  constructor
  · intro r hr
    simp [apiMe, ha, meHandler, usersGet_of_ownProperty hr, Looked.falsy, Looked.propName,
      Looked.propEmail]
  · intro hu
    simp [apiMe, ha, meHandler, hu, Looked.falsy]

/-- The identity route at work: a token for Ada, five seconds old, and a store
that holds her record. -/
theorem me_after_guard_witness :
    (∀ r, ownProperty
          [("ada@example.com",
            { name := "Ada", email := "ada@example.com", passwordHash := "saltsecret1",
              createdAt := "t0" })]
          (propertyKey (some "ada@example.com")) = some r →
        (apiMe plainLib ⟨none, none⟩
          [("ada@example.com",
            { name := "Ada", email := "ada@example.com", passwordHash := "saltsecret1",
              createdAt := "t0" })]
          5 (some (jwtSign plainLib ⟨some "ada@example.com", none⟩
            (JWT_SECRET ⟨none, none⟩) expiresIn 0))).res =
          { status := 200, body := .user (some r.name) (some r.email), cookies := [] }) ∧
      (usersGet
          [("ada@example.com",
            { name := "Ada", email := "ada@example.com", passwordHash := "saltsecret1",
              createdAt := "t0" })]
          (propertyKey (some "ada@example.com")) = .undefined →
        (apiMe plainLib ⟨none, none⟩
          [("ada@example.com",
            { name := "Ada", email := "ada@example.com", passwordHash := "saltsecret1",
              createdAt := "t0" })]
          5 (some (jwtSign plainLib ⟨some "ada@example.com", none⟩
            (JWT_SECRET ⟨none, none⟩) expiresIn 0))).res = fail 401 "User not found") :=
  me_after_guard plainLib ⟨none, none⟩ _ 5 _ ⟨some "ada@example.com", none⟩ (by rfl)

/-- C6 fails as stated: on the empty store, a token for `nobody@example.com`
signed with the server secret passes the guard, and the route answers 401 with
the error `User not found`, which is not the body `Unauthorized` that a
request without a cookie gets. -/
theorem me_unknown_user_not_unauthorized :
    (requireAuth plainLib ⟨none, none⟩ 5
        (some (jwtSign plainLib ⟨some "nobody@example.com", none⟩
          (JWT_SECRET ⟨none, none⟩) expiresIn 0))).nextCalled = true ∧
      (apiMe plainLib ⟨none, none⟩ users 5
        (some (jwtSign plainLib ⟨some "nobody@example.com", none⟩
          (JWT_SECRET ⟨none, none⟩) expiresIn 0))).res = fail 401 "User not found" ∧
      (apiMe plainLib ⟨none, none⟩ users 5 none).res = fail 401 "Unauthorized" ∧
      fail 401 "User not found" ≠ fail 401 "Unauthorized" := by
  decide

end Server
